import Mathlib

/-!
Verification of the admin-session authentication core of `server.js`
(repository `johnlatif16/email`).

The embedded code:
  * `signAdminToken`, `verifyToken`   — server.js lines 87-100
  * `checkJWT`                        — server.js lines 107-128 (the API guard)
  * `checkJWTForPage`                 — server.js lines 133-147 (the page guard)
  * `escapeHtml`                      — server.js lines 161-168
  * the admin-message HTML body       — server.js line 310

JavaScript exceptions thrown by `verifyToken` are modelled as `Except.error`
values; the `try/catch` of each guard is the `match` on that `Except`.
JavaScript truthiness of the candidate token strings (`undefined`, `null`
and the empty string are falsy) is modelled by `jsTruthy` on `Option String`.
-/

/-- Decoded payload of a session token: `username`, `role` plus the
`iat`/`exp` timestamps added by signing (spec section 3, "Session Token"). -/
structure Claims where
  username : String
  role : String
  issuedAt : Nat
  expiresAt : Nat
deriving DecidableEq, Repr

/-- Modelled from the spec: the `jsonwebtoken` library used by
`signAdminToken`/`verifyToken` is not part of src/.  Per spec sections 4.1
and 6 a token is "an industry-standard signed claim token (HMAC or
equivalent)"; we model it symbolically as the claims together with the
secret that signed them (a perfect, collision-free MAC). -/
structure SignedToken where
  claims : Claims
  sig : String
deriving DecidableEq, Repr

/-- Wire encoding of one string field: a unary length prefix, a colon,
then the raw characters.  Part of the symbolic token wire format. -/
def encField (s : String) : List Char :=
  List.replicate s.data.length 'x' ++ ':' :: s.data

/-- Wire encoding of one natural-number field: unary digits then a
semicolon. -/
def encNatField (n : Nat) : List Char :=
  List.replicate n 'x' ++ [';']

/-- Modelled from the spec: the opaque signed string produced by
`jwt.sign` (spec section 3: "an opaque signed string encoding
username, role, issuedAt, expiresAt"). -/
def encodeToken (t : SignedToken) : String :=
  ⟨encField t.claims.username ++ (encField t.claims.role ++
    (encNatField t.claims.issuedAt ++ (encNatField t.claims.expiresAt ++
      encField t.sig)))⟩

/-- Count the leading run of `x` characters and return it with the rest. -/
def takeUnary : List Char → Nat × List Char
  | [] => (0, [])
  | c :: cs =>
    if c = 'x' then
      let p := takeUnary cs
      (p.1 + 1, p.2)
    else (0, c :: cs)

/-- Parse one string field of the wire format. -/
def decField (l : List Char) : Option (String × List Char) :=
  match takeUnary l with
  | (n, ':' :: rest) =>
    if n ≤ rest.length then some (⟨rest.take n⟩, rest.drop n) else none
  | _ => none

/-- Parse one natural-number field of the wire format. -/
def decNatField (l : List Char) : Option (Nat × List Char) :=
  match takeUnary l with
  | (n, ';' :: rest) => some (n, rest)
  | _ => none

/-- Modelled from the spec: decoding of the symbolic token wire format
(`jwt.verify` first decodes the token's structure; a string that is not a
well-formed token is the spec's "malformed token structure" failure). -/
def decodeToken (s : String) : Option SignedToken :=
  match decField s.data with
  | none => none
  | some (username, r1) =>
    match decField r1 with
    | none => none
    | some (role, r2) =>
      match decNatField r2 with
      | none => none
      | some (issuedAt, r3) =>
        match decNatField r3 with
        | none => none
        | some (expiresAt, r4) =>
          match decField r4 with
          | none => none
          | some (sig, r5) =>
            if r5 = [] then some ⟨⟨username, role, issuedAt, expiresAt⟩, sig⟩
            else none

/-- The process environment consumed by the JWT helpers:
`process.env.JWT_SECRET` (may be absent) and the token lifetime coming
from `process.env.JWT_EXPIRES_IN || "2h"`, in seconds (default 7200). -/
structure Env where
  jwtSecret : Option String
  jwtExpiresIn : Nat
deriving DecidableEq, Repr

/-- Modelled from the spec: `jwt.verify(token, secret)` at clock time
`now`.  Success returns the decoded claims iff the signature matches the
secret and `now` is strictly before the expiry (spec section 4.1); a
malformed string, a signature mismatch and an elapsed expiry all fail. -/
def jwtVerify (tokStr : String) (secret : String) (now : Nat) : Option Claims :=
  match decodeToken tokStr with
  | none => none
  | some t =>
    if t.sig = secret ∧ now < t.claims.expiresAt then some t.claims else none

/-- server.js lines 87-94: sign a payload with `process.env.JWT_SECRET`;
the `if (!secret) throw` guard fires for a falsy secret, i.e. when the
variable is absent or the empty string.  `jwt.sign` stamps the issue time
`now` and the expiry `now + expiresIn`.  The thrown `Error` is an
`Except.error`. -/
def signAdminToken (env : Env) (now : Nat) (payloadUsername payloadRole : String) :
    Except String String :=
  match env.jwtSecret with
  | none => .error "JWT_SECRET is missing in .env"
  | some secret =>
    if secret = "" then .error "JWT_SECRET is missing in .env"
    else
      .ok (encodeToken
        ⟨⟨payloadUsername, payloadRole, now, now + env.jwtExpiresIn⟩, secret⟩)

/-- server.js lines 96-100: `verifyToken(token)` reads
`process.env.JWT_SECRET` at call time; the `if (!secret) throw` guard
fires for a falsy secret, i.e. when the variable is absent or the empty
string; otherwise it returns `jwt.verify(token, secret)` — which itself
throws on an invalid token.  Both throws are `Except.error` values. -/
def verifyToken (env : Env) (token : String) (now : Nat) : Except String Claims :=
  match env.jwtSecret with
  | none => .error "JWT_SECRET is missing in .env"
  | some secret =>
    if secret = "" then .error "JWT_SECRET is missing in .env"
    else
      match jwtVerify token secret now with
      | some decoded => .ok decoded
      | none => .error "invalid token"

/-- JavaScript truthiness of a possibly-absent string: `undefined`/`null`
and the empty string are falsy. -/
def jsTruthy : Option String → Bool
  | none => false
  | some s => !(s == "")

/-- JavaScript `a || b` on possibly-absent strings. -/
def jsOr (a b : Option String) : Option String :=
  if jsTruthy a then a else b

/-- JavaScript `s.startsWith(p)`. -/
def strStartsWith (s p : String) : Bool :=
  p.data.isPrefixOf s.data

/-- JavaScript `s.slice(n)` for a non-negative index `n`. -/
def strSlice (s : String) (n : Nat) : String :=
  ⟨s.data.drop n⟩

/-- The slice of an incoming request the guards read:
`req.headers.authorization` and `req.cookies?.admin_token`. -/
structure Request where
  authorization : Option String
  cookieAdminToken : Option String
deriving DecidableEq, Repr

/-- server.js lines 109-115, the Session Extractor of the spec:
`authHeader = req.headers.authorization || ""`;
`bearerToken = authHeader.startsWith("Bearer ") ? authHeader.slice(7) : null`;
`token = bearerToken || cookieToken`.  The result may be `some ""`
(an empty candidate), which the guards' `!token` test then rejects. -/
def extractToken (req : Request) : Option String :=
  let authHeader := req.authorization.getD ""
  let bearerToken : Option String :=
    if strStartsWith authHeader "Bearer " then some (strSlice authHeader 7) else none
  jsOr bearerToken req.cookieAdminToken

/-- Outcome of the API guard: `next()` with `req.admin = decoded`, or
`res.status(status).json` with the given error text. -/
inductive ApiResult where
  | allow (decoded : Claims)
  | deny (status : Nat) (error : String)
deriving DecidableEq, Repr

/-- server.js lines 107-128, `checkJWT`: extract a candidate token; the
`!token` test denies 401 when the candidate is absent or empty; a throw
from `verifyToken` is caught and denies 401; a decoded role other than
"admin" denies 403; otherwise the claims are attached and the request
proceeds. -/
def checkJWT (env : Env) (now : Nat) (req : Request) : ApiResult :=
  match extractToken req with
  | none => .deny 401 "Unauthorized"
  | some t =>
    if t = "" then .deny 401 "Unauthorized"
    else
      match verifyToken env t now with
      | .error _ => .deny 401 "Unauthorized"
      | .ok decoded =>
        if decoded.role = "admin" then .allow decoded
        else .deny 403 "Forbidden"

/-- Outcome of the page guard: `next()` with the claims attached, or
`res.redirect(location)`. -/
inductive PageResult where
  | allow (decoded : Claims)
  | redirect (location : String)
deriving DecidableEq, Repr

/-- server.js lines 133-147, `checkJWTForPage`: the candidate token is
`req.cookies?.admin_token` only (the Authorization header is not read);
every failure — missing/empty cookie, a throw from `verifyToken`, or a
non-admin role — redirects to `/admin-login.html`. -/
def checkJWTForPage (env : Env) (now : Nat) (req : Request) : PageResult :=
  match req.cookieAdminToken with
  | none => .redirect "/admin-login.html"
  | some t =>
    if t = "" then .redirect "/admin-login.html"
    else
      match verifyToken env t now with
      | .error _ => .redirect "/admin-login.html"
      | .ok decoded =>
        if decoded.role = "admin" then .allow decoded
        else .redirect "/admin-login.html"

/-- Character-level model of JavaScript `String.prototype.replaceAll` with a
single-character pattern `c` (also of `replace` with a global
single-character regular expression): every occurrence of `c` is replaced
by `r`, all other characters are kept. -/
def escL (c : Char) (r : List Char) : List Char → List Char
  | [] => []
  | d :: l => (if d = c then r else [d]) ++ escL c r l

/-- String wrapper of `escL`: `s.replaceAll(c, r)` for a one-character
pattern `c`. -/
def replaceAllChar (s : String) (c : Char) (r : String) : String :=
  ⟨escL c r.data s.data⟩

/-- server.js lines 161-168: `escapeHtml` chains five `replaceAll` calls,
ampersand first, then the angle brackets, the double quote and the single
quote (character code 39). -/
def escapeHtml (s : String) : String :=
  replaceAllChar
    (replaceAllChar
      (replaceAllChar
        (replaceAllChar
          (replaceAllChar s '&' "&amp;")
          '<' "&lt;")
        '>' "&gt;")
      (Char.ofNat 34) "&quot;")
    (Char.ofNat 39) "&#039;"

/-- server.js line 310: the HTML body of the admin notification email,
`<p>` + `escapeHtml(message).replace(/\n/g, "<br/>")` + `</p>` (character
code 10 is the newline matched by the regular expression). -/
def adminMessageHtml (message : String) : String :=
  "<p>" ++ replaceAllChar (escapeHtml message) (Char.ofNat 10) "<br/>" ++ "</p>"

/-- The entity tails that may legally follow an ampersand in
`escapeHtml` output. -/
def entityTails : List (List Char) :=
  [['a', 'm', 'p', ';'], ['l', 't', ';'], ['g', 't', ';'],
   ['q', 'u', 'o', 't', ';'], ['#', '0', '3', '9', ';']]

/-- Every ampersand in the list begins one of the five replacement
entities: it is immediately followed by one of the `entityTails`. -/
def ampersandsEscaped : List Char → Bool
  | [] => true
  | d :: rest =>
    (!(d == '&') || entityTails.any (fun e => e.isPrefixOf rest)) &&
      ampersandsEscaped rest

/-- First `replaceAll` stage of `escapeHtml` on character lists. -/
def escStage1 (l : List Char) : List Char := escL '&' "&amp;".data l

/-- Second `replaceAll` stage of `escapeHtml` on character lists. -/
def escStage2 (l : List Char) : List Char := escL '<' "&lt;".data (escStage1 l)

/-- Third `replaceAll` stage of `escapeHtml` on character lists. -/
def escStage3 (l : List Char) : List Char := escL '>' "&gt;".data (escStage2 l)

/-- Fourth `replaceAll` stage of `escapeHtml` on character lists. -/
def escStage4 (l : List Char) : List Char :=
  escL (Char.ofNat 34) "&quot;".data (escStage3 l)

/-- Fifth `replaceAll` stage of `escapeHtml` on character lists. -/
def escStage5 (l : List Char) : List Char :=
  escL (Char.ofNat 39) "&#039;".data (escStage4 l)


/-! ### Wire-format round trip -/

theorem takeUnary_replicate (n : Nat) (c : Char) (rest : List Char) (h : ¬ c = 'x') :
    takeUnary (List.replicate n 'x' ++ c :: rest) = (n, c :: rest) := by
  induction n with
  | zero => simp [takeUnary, h]
  | succ k ih => simp [List.replicate, takeUnary, ih]

theorem take_len_append (a b : List Char) : (a ++ b).take a.length = a := by
  induction a with
  | nil => rfl
  | cons x xs ih => simp [ih]

theorem drop_len_append (a b : List Char) : (a ++ b).drop a.length = b := by
  induction a with
  | nil => rfl
  | cons x xs ih => simp [ih]

theorem decField_enc (s : String) (rest : List Char) :
    decField (encField s ++ rest) = some (s, rest) := by
  have h : encField s ++ rest
      = List.replicate s.data.length 'x' ++ ':' :: (s.data ++ rest) := by
    simp [encField]
  rw [h, decField]
  rw [takeUnary_replicate _ _ _ (by decide)]
  simp [take_len_append, drop_len_append, List.length_append, Nat.le_add_right]

theorem decField_enc_nil (s : String) : decField (encField s) = some (s, []) := by
  have h := decField_enc s []
  simpa using h

theorem decNatField_enc (n : Nat) (rest : List Char) :
    decNatField (encNatField n ++ rest) = some (n, rest) := by
  have h : encNatField n ++ rest = List.replicate n 'x' ++ ';' :: rest := by
    simp [encNatField]
  rw [h, decNatField]
  rw [takeUnary_replicate _ _ _ (by decide)]
  rfl

theorem decodeToken_encodeToken (t : SignedToken) :
    decodeToken (encodeToken t) = some t := by
  obtain ⟨⟨u, r, i, e⟩, g⟩ := t
  show decodeToken
      ⟨encField u ++ (encField r ++ (encNatField i ++ (encNatField e ++ encField g)))⟩
      = some ⟨⟨u, r, i, e⟩, g⟩
  simp [decodeToken, decField_enc, decNatField_enc, decField_enc_nil]

/-! ### Character-level facts about `escL` -/

theorem escL_append (c : Char) (r a b : List Char) :
    escL c r (a ++ b) = escL c r a ++ escL c r b := by
  induction a with
  | nil => rfl
  | cons x xs ih => simp [escL, ih, List.append_assoc]

theorem escL_of_not_mem {c : Char} {a : List Char} (r : List Char) (h : ¬ c ∈ a) :
    escL c r a = a := by
  induction a with
  | nil => rfl
  | cons x xs ih =>
    have hx : ¬ x = c := by
      intro he
      exact h (he ▸ List.mem_cons_self x xs)
    have hxs : ¬ c ∈ xs := fun hm => h (List.mem_cons_of_mem x hm)
    simp [escL, hx, ih hxs]

theorem mem_escL {x c : Char} {r l : List Char} (h : x ∈ escL c r l) :
    x ∈ r ∨ (x ∈ l ∧ ¬ x = c) := by
  induction l with
  | nil => simp [escL] at h
  | cons d l' ih =>
    rw [escL, List.mem_append] at h
    rcases h with h | h
    · by_cases hd : d = c
      · rw [if_pos hd] at h
        exact Or.inl h
      · rw [if_neg hd] at h
        have hx : x = d := by simpa using h
        exact Or.inr ⟨by simp [hx], by rw [hx]; exact hd⟩
    · rcases ih h with h' | ⟨hm, hne⟩
      · exact Or.inl h'
      · exact Or.inr ⟨List.mem_cons_of_mem d hm, hne⟩

theorem not_mem_escL {x c : Char} {r l : List Char}
    (hr : ¬ x ∈ r) (hx : x = c ∨ ¬ x ∈ l) : ¬ x ∈ escL c r l := by
  intro h
  rcases mem_escL h with h' | ⟨hm, hne⟩
  · exact hr h'
  · rcases hx with he | hnm
    · exact hne he
    · exact hnm hm

/-! ### Every ampersand in `escapeHtml` output begins an entity -/

theorem isPrefixOf_append_self (e t : List Char) : e.isPrefixOf (e ++ t) = true := by
  induction e with
  | nil => simp
  | cons a e' ih => simp [List.isPrefixOf_cons₂, ih]

theorem exists_of_isPrefixOf :
    ∀ {e l : List Char}, e.isPrefixOf l = true → ∃ t, l = e ++ t := by
  intro e
  induction e with
  | nil => exact fun {l} _ => ⟨l, rfl⟩
  | cons a e' ih =>
    intro l h
    cases l with
    | nil => simp [List.isPrefixOf_cons_nil] at h
    | cons b l' =>
      rw [List.isPrefixOf_cons₂, Bool.and_eq_true, beq_iff_eq] at h
      obtain ⟨t, ht⟩ := ih h.2
      exact ⟨t, by simp [h.1, ht]⟩

theorem ampersandsEscaped_append {e rest : List Char} (he : ¬ '&' ∈ e) :
    ampersandsEscaped (e ++ rest) = ampersandsEscaped rest := by
  induction e with
  | nil => rfl
  | cons a e' ih =>
    have ha : ¬ a = '&' := by
      intro h
      exact he (h ▸ List.mem_cons_self a e')
    have he' : ¬ '&' ∈ e' := fun hm => he (List.mem_cons_of_mem a hm)
    have hbeq : (a == '&') = false := by
      simpa using ha
    simp [ampersandsEscaped, hbeq, ih he']

theorem entityTails_no_amp : ∀ e, e ∈ entityTails → ¬ '&' ∈ e := by decide

theorem ampersandsEscaped_escL_amp (l : List Char) :
    ampersandsEscaped (escL '&' ('&' :: ['a', 'm', 'p', ';']) l) = true := by
  induction l with
  | nil => rfl
  | cons d l' ih =>
    by_cases hd : d = '&'
    · rw [escL, if_pos hd, List.cons_append]
      have hpre := isPrefixOf_append_self ['a', 'm', 'p', ';']
        (escL '&' ('&' :: ['a', 'm', 'p', ';']) l')
      have happ : ampersandsEscaped
          (['a', 'm', 'p', ';'] ++ escL '&' ('&' :: ['a', 'm', 'p', ';']) l')
          = ampersandsEscaped (escL '&' ('&' :: ['a', 'm', 'p', ';']) l') :=
        ampersandsEscaped_append (by decide)
      simp [ampersandsEscaped, entityTails, hpre, happ, ih]
    · rw [escL, if_neg hd, List.singleton_append]
      have hbeq : (d == '&') = false := by simpa using hd
      simp [ampersandsEscaped, hbeq, ih]

theorem ampersandsEscaped_escL_preserve (c : Char) (tail : List Char)
    (hct : ∀ e, e ∈ entityTails → ¬ c ∈ e) (ht : tail ∈ entityTails)
    (l : List Char) (hl : ampersandsEscaped l = true) :
    ampersandsEscaped (escL c ('&' :: tail) l) = true := by
  induction l with
  | nil => rfl
  | cons d l' ih =>
    simp only [ampersandsEscaped, Bool.and_eq_true] at hl
    obtain ⟨hl1, hl2⟩ := hl
    by_cases hdc : d = c
    · rw [escL, if_pos hdc, List.cons_append]
      have happ : ampersandsEscaped (tail ++ escL c ('&' :: tail) l')
          = ampersandsEscaped (escL c ('&' :: tail) l') :=
        ampersandsEscaped_append (entityTails_no_amp tail ht)
      have hany : entityTails.any
          (fun e => e.isPrefixOf (tail ++ escL c ('&' :: tail) l')) = true := by
        apply List.any_eq_true.mpr
        exact ⟨tail, ht, isPrefixOf_append_self tail _⟩
      simp [ampersandsEscaped, hany, happ, ih hl2]
    · rw [escL, if_neg hdc, List.singleton_append]
      by_cases hda : d = '&'
      · subst hda
        have hany' : entityTails.any (fun e => e.isPrefixOf l') = true := by
          simpa using hl1
        obtain ⟨e, he, hpre⟩ := List.any_eq_true.mp hany'
        obtain ⟨t2, ht2⟩ := exists_of_isPrefixOf hpre
        have hesc : escL c ('&' :: tail) l' = e ++ escL c ('&' :: tail) t2 := by
          rw [ht2, escL_append, escL_of_not_mem _ (hct e he)]
        have hany2 : entityTails.any
            (fun x => x.isPrefixOf (escL c ('&' :: tail) l')) = true := by
          apply List.any_eq_true.mpr
          refine ⟨e, he, ?_⟩
          rw [hesc]
          exact isPrefixOf_append_self _ _
        simp [ampersandsEscaped, hany2, ih hl2]
      · have hbeq : (d == '&') = false := by simpa using hda
        simp [ampersandsEscaped, hbeq, ih hl2]

/-! ### Claim theorems -/

/-- C1: for every request handled by the API guard `checkJWT`: if no token
is extracted (the candidate is absent or empty) the result is a 401 deny
with error text "Unauthorized"; if a token is extracted but verification
fails (a throw from `verifyToken`) the result is a 401 deny; if the token
verifies but its role claim is not "admin" the result is a 403 deny with
error text "Forbidden"; otherwise the request is allowed and the decoded
claims are attached. -/
theorem C1_guardApi_outcomes (env : Env) (now : Nat) (req : Request) :
    (jsTruthy (extractToken req) = false →
      checkJWT env now req = .deny 401 "Unauthorized") ∧
    (∀ t, extractToken req = some t → ¬ t = "" →
      ∀ e, verifyToken env t now = .error e →
        checkJWT env now req = .deny 401 "Unauthorized") ∧
    (∀ t c, extractToken req = some t → ¬ t = "" →
      verifyToken env t now = .ok c → ¬ c.role = "admin" →
        checkJWT env now req = .deny 403 "Forbidden") ∧
    (∀ t c, extractToken req = some t → ¬ t = "" →
      verifyToken env t now = .ok c → c.role = "admin" →
        checkJWT env now req = .allow c) := by
  refine ⟨?_, ?_, ?_, ?_⟩
  · intro h
    cases hx : extractToken req with
    | none => simp [checkJWT, hx]
    | some s =>
      have hs : s = "" := by
        rw [hx] at h
        simpa [jsTruthy] using h
      simp [checkJWT, hx, hs]
  · intro t hx hne e hv
    simp [checkJWT, hx, hne, hv]
  · intro t c hx hne hv hr
    simp [checkJWT, hx, hne, hv, hr]
  · intro t c hx hne hv hr
    simp [checkJWT, hx, hne, hv, hr]

/-- Witness for C1 at concrete inputs: no credentials give 401, an expired
admin token gives 401, a valid non-admin token gives 403, a valid admin
token is allowed. -/
theorem C1_guardApi_outcomes_witness :
    checkJWT ⟨some "s1", 2⟩ 1 ⟨none, none⟩ = .deny 401 "Unauthorized" ∧
    checkJWT ⟨some "s1", 2⟩ 3
      ⟨none, some (encodeToken ⟨⟨"root", "admin", 0, 2⟩, "s1"⟩)⟩ =
      .deny 401 "Unauthorized" ∧
    checkJWT ⟨some "s1", 2⟩ 1
      ⟨none, some (encodeToken ⟨⟨"root", "user", 0, 2⟩, "s1"⟩)⟩ =
      .deny 403 "Forbidden" ∧
    checkJWT ⟨some "s1", 2⟩ 1
      ⟨none, some (encodeToken ⟨⟨"root", "admin", 0, 2⟩, "s1"⟩)⟩ =
      .allow ⟨"root", "admin", 0, 2⟩ := by
  refine ⟨?_, ?_, ?_, ?_⟩
  · exact (C1_guardApi_outcomes ⟨some "s1", 2⟩ 1 ⟨none, none⟩).1 (by decide)
  · exact (C1_guardApi_outcomes ⟨some "s1", 2⟩ 3
      ⟨none, some (encodeToken ⟨⟨"root", "admin", 0, 2⟩, "s1"⟩)⟩).2.1
      (encodeToken ⟨⟨"root", "admin", 0, 2⟩, "s1"⟩) rfl (by decide)
      "invalid token" (by rfl)
  · exact (C1_guardApi_outcomes ⟨some "s1", 2⟩ 1
      ⟨none, some (encodeToken ⟨⟨"root", "user", 0, 2⟩, "s1"⟩)⟩).2.2.1
      (encodeToken ⟨⟨"root", "user", 0, 2⟩, "s1"⟩) ⟨"root", "user", 0, 2⟩
      rfl (by decide) (by rfl) (by decide)
  · exact (C1_guardApi_outcomes ⟨some "s1", 2⟩ 1
      ⟨none, some (encodeToken ⟨⟨"root", "admin", 0, 2⟩, "s1"⟩)⟩).2.2.2
      (encodeToken ⟨⟨"root", "admin", 0, 2⟩, "s1"⟩) ⟨"root", "admin", 0, 2⟩
      rfl (by decide) (by rfl) rfl

/-- C2: for every request handled by the page guard `checkJWTForPage`,
every failure path — no token extracted (absent or empty cookie), a
verification failure, or a verified token whose role is not "admin" —
produces a redirect to /admin-login.html; otherwise the request is
allowed; and the outcome is always either an allow or that redirect,
never a JSON error body. -/
theorem C2_guardPage_outcomes (env : Env) (now : Nat) (req : Request) :
    ((req.cookieAdminToken = none ∨ req.cookieAdminToken = some "") →
      checkJWTForPage env now req = .redirect "/admin-login.html") ∧
    (∀ t, req.cookieAdminToken = some t → ¬ t = "" →
      ∀ e, verifyToken env t now = .error e →
        checkJWTForPage env now req = .redirect "/admin-login.html") ∧
    (∀ t c, req.cookieAdminToken = some t → ¬ t = "" →
      verifyToken env t now = .ok c → ¬ c.role = "admin" →
        checkJWTForPage env now req = .redirect "/admin-login.html") ∧
    (∀ t c, req.cookieAdminToken = some t → ¬ t = "" →
      verifyToken env t now = .ok c → c.role = "admin" →
        checkJWTForPage env now req = .allow c) ∧
    ((∃ c, checkJWTForPage env now req = .allow c) ∨
      checkJWTForPage env now req = .redirect "/admin-login.html") := by
  refine ⟨?_, ?_, ?_, ?_, ?_⟩
  · intro h
    rcases h with h | h <;> simp [checkJWTForPage, h]
  · intro t hck hne e hv
    simp [checkJWTForPage, hck, hne, hv]
  · intro t c hck hne hv hr
    simp [checkJWTForPage, hck, hne, hv, hr]
  · intro t c hck hne hv hr
    simp [checkJWTForPage, hck, hne, hv, hr]
  · cases hck : req.cookieAdminToken with
    | none => right; simp [checkJWTForPage, hck]
    | some t =>
      by_cases hne : t = ""
      · right; simp [checkJWTForPage, hck, hne]
      · cases hv : verifyToken env t now with
        | error e => right; simp [checkJWTForPage, hck, hne, hv]
        | ok c =>
          by_cases hr : c.role = "admin"
          · left; exact ⟨c, by simp [checkJWTForPage, hck, hne, hv, hr]⟩
          · right; simp [checkJWTForPage, hck, hne, hv, hr]

/-- Witness for C2 at concrete inputs: missing cookie redirects, an
expired cookie token redirects, a valid admin cookie token is allowed. -/
theorem C2_guardPage_outcomes_witness :
    checkJWTForPage ⟨none, 2⟩ 1 ⟨none, none⟩ = .redirect "/admin-login.html" ∧
    checkJWTForPage ⟨some "s1", 2⟩ 3
      ⟨none, some (encodeToken ⟨⟨"root", "admin", 0, 2⟩, "s1"⟩)⟩ =
      .redirect "/admin-login.html" ∧
    checkJWTForPage ⟨some "s1", 2⟩ 1
      ⟨none, some (encodeToken ⟨⟨"root", "admin", 0, 2⟩, "s1"⟩)⟩ =
      .allow ⟨"root", "admin", 0, 2⟩ := by
  refine ⟨?_, ?_, ?_⟩
  · exact (C2_guardPage_outcomes ⟨none, 2⟩ 1 ⟨none, none⟩).1 (Or.inl rfl)
  · exact (C2_guardPage_outcomes ⟨some "s1", 2⟩ 3
      ⟨none, some (encodeToken ⟨⟨"root", "admin", 0, 2⟩, "s1"⟩)⟩).2.1
      (encodeToken ⟨⟨"root", "admin", 0, 2⟩, "s1"⟩) rfl (by decide)
      "invalid token" (by rfl)
  · exact (C2_guardPage_outcomes ⟨some "s1", 2⟩ 1
      ⟨none, some (encodeToken ⟨⟨"root", "admin", 0, 2⟩, "s1"⟩)⟩).2.2.2.1
      (encodeToken ⟨⟨"root", "admin", 0, 2⟩, "s1"⟩) ⟨"root", "admin", 0, 2⟩
      rfl (by decide) (by rfl) rfl

/-- C9: a request whose Authorization header is exactly "Bearer " (empty
remainder) is treated by `checkJWT` exactly like a request with no
Authorization header — it falls back to the admin_token cookie — and is
denied 401 when no cookie is present. -/
theorem C9_empty_bearer_falls_back (env : Env) (now : Nat) (ck : Option String) :
    checkJWT env now ⟨some "Bearer ", ck⟩ = checkJWT env now ⟨none, ck⟩ ∧
    checkJWT env now ⟨some "Bearer ", none⟩ = .deny 401 "Unauthorized" := by
  have hx : extractToken ⟨some "Bearer ", ck⟩ = extractToken ⟨none, ck⟩ := by
    cases ck <;> rfl
  constructor
  · simp only [checkJWT, hx]
  · rfl

/-- C8: verification and extraction report failure through result values:
`verifyToken` always returns either a success or an error value (the
thrown JavaScript exception is that error value), `extractToken` is a
total function into an option, and neither guard lets a verification
error escape — `checkJWT` maps it to a 401 deny and every guard outcome
is one of the closed outcome sets, so a caller cannot skip handling an
authentication failure. -/
theorem C8_failures_are_result_values (env : Env) (t : String) (now : Nat)
    (req : Request) :
    ((∃ c, verifyToken env t now = .ok c) ∨
      (∃ e, verifyToken env t now = .error e)) ∧
    ((∃ s, extractToken req = some s) ∨ extractToken req = none) ∧
    (∀ e, extractToken req = some t → ¬ t = "" →
      verifyToken env t now = .error e →
        checkJWT env now req = .deny 401 "Unauthorized") ∧
    ((∃ c, checkJWT env now req = .allow c) ∨
      checkJWT env now req = .deny 401 "Unauthorized" ∨
      checkJWT env now req = .deny 403 "Forbidden") ∧
    ((∃ c, checkJWTForPage env now req = .allow c) ∨
      checkJWTForPage env now req = .redirect "/admin-login.html") := by
  refine ⟨?_, ?_, ?_, ?_, ?_⟩
  · cases hv : verifyToken env t now with
    | ok c => exact Or.inl ⟨c, rfl⟩
    | error e => exact Or.inr ⟨e, rfl⟩
  · cases hx : extractToken req with
    | some s => exact Or.inl ⟨s, rfl⟩
    | none => exact Or.inr rfl
  · intro e hx hne hv
    simp [checkJWT, hx, hne, hv]
  · cases hx : extractToken req with
    | none => right; left; simp [checkJWT, hx]
    | some s =>
      by_cases hne : s = ""
      · right; left; simp [checkJWT, hx, hne]
      · cases hv : verifyToken env s now with
        | error e => right; left; simp [checkJWT, hx, hne, hv]
        | ok c =>
          by_cases hr : c.role = "admin"
          · left; exact ⟨c, by simp [checkJWT, hx, hne, hv, hr]⟩
          · right; right; simp [checkJWT, hx, hne, hv, hr]
  · cases hck : req.cookieAdminToken with
    | none => right; simp [checkJWTForPage, hck]
    | some s =>
      by_cases hne : s = ""
      · right; simp [checkJWTForPage, hck, hne]
      · cases hv : verifyToken env s now with
        | error e => right; simp [checkJWTForPage, hck, hne, hv]
        | ok c =>
          by_cases hr : c.role = "admin"
          · left; exact ⟨c, by simp [checkJWTForPage, hck, hne, hv, hr]⟩
          · right; simp [checkJWTForPage, hck, hne, hv, hr]

/-- Witness for C8 at a concrete input: an invalid cookie token is an
error value of `verifyToken` and is handled as a 401 deny. -/
theorem C8_failures_are_result_values_witness :
    ((∃ c, verifyToken ⟨some "s1", 2⟩ "garbage" 1 = .ok c) ∨
      (∃ e, verifyToken ⟨some "s1", 2⟩ "garbage" 1 = .error e)) ∧
    checkJWT ⟨some "s1", 2⟩ 1 ⟨none, some "garbage"⟩ = .deny 401 "Unauthorized" := by
  constructor
  · exact (C8_failures_are_result_values ⟨some "s1", 2⟩ "garbage" 1
      ⟨none, some "garbage"⟩).1
  · exact (C8_failures_are_result_values ⟨some "s1", 2⟩ "garbage" 1
      ⟨none, some "garbage"⟩).2.2.1 "invalid token" rfl (by decide) (by rfl)

/-- C3 counterexample: at clock time 1, the same request carrying a token
that is valid for secret "s1" is allowed when the secret is configured
and denied 401 when `JWT_SECRET` is absent — so the guard's deny/allow
outcome IS determined, per request, by the secret being missing, and the
missing secret surfaces as a per-request 401, not as a startup-time
failure. -/
theorem C3_counterexample :
    checkJWT ⟨none, 2⟩ 1
      ⟨none, some (encodeToken ⟨⟨"root", "admin", 0, 2⟩, "s1"⟩)⟩ =
      .deny 401 "Unauthorized" ∧
    checkJWT ⟨some "s1", 2⟩ 1
      ⟨none, some (encodeToken ⟨⟨"root", "admin", 0, 2⟩, "s1"⟩)⟩ =
      .allow ⟨"root", "admin", 0, 2⟩ := by
  exact ⟨by decide, by decide⟩

/-- C3 amended: the source has no startup-time check of `JWT_SECRET`;
`verifyToken` reads it at each call and throws when it is absent, and the
API guard catches that throw — so with a missing secret every guarded API
request is denied 401 at request time, whatever credentials it carries. -/
theorem C3_amended_missing_secret_denies_per_request (env : Env) (now : Nat)
    (req : Request) (h : env.jwtSecret = none) :
    checkJWT env now req = .deny 401 "Unauthorized" := by
  cases hx : extractToken req with
  | none => simp [checkJWT, hx]
  | some t =>
    by_cases hne : t = ""
    · simp [checkJWT, hx, hne]
    · simp [checkJWT, hx, hne, verifyToken, h]

/-- Witness for the amended C3: with no secret configured, a request
carrying an otherwise valid admin token is denied 401. -/
theorem C3_amended_missing_secret_denies_per_request_witness :
    checkJWT ⟨none, 2⟩ 1
      ⟨none, some (encodeToken ⟨⟨"root", "admin", 0, 2⟩, "s1"⟩)⟩ =
      .deny 401 "Unauthorized" :=
  C3_amended_missing_secret_denies_per_request ⟨none, 2⟩ 1
    ⟨none, some (encodeToken ⟨⟨"root", "admin", 0, 2⟩, "s1"⟩)⟩ rfl

/-- C4 counterexample: with the Authorization header exactly "Bearer "
(present, starts with the prefix, empty remainder) and the admin_token
cookie present, extraction selects the cookie value, not the remainder of
the header — refuting the claim's unconditional header precedence. -/
theorem C4_counterexample :
    strStartsWith "Bearer " "Bearer " = true ∧
    strSlice "Bearer " 7 = "" ∧
    extractToken ⟨some "Bearer ", some "cookie-token"⟩ = some "cookie-token" ∧
    ¬ extractToken ⟨some "Bearer ", some "cookie-token"⟩ =
      some (strSlice "Bearer " 7) := by
  exact ⟨by decide, by decide, by decide, by decide⟩

/-- C4 amended: if the Authorization header starts with "Bearer " and the
remainder after the prefix is non-empty, extraction selects the
remainder, not the cookie; if the header lacks the prefix, or the
remainder is empty, the cookie (when any) is the candidate; if neither
header nor cookie is present, no token is extracted. -/
theorem C4_amended_extractor_precedence (h : String) (ck : Option String) :
    (strStartsWith h "Bearer " = true → ¬ strSlice h 7 = "" →
      extractToken ⟨some h, ck⟩ = some (strSlice h 7)) ∧
    (strStartsWith h "Bearer " = false → extractToken ⟨some h, ck⟩ = ck) ∧
    (strStartsWith h "Bearer " = true → strSlice h 7 = "" →
      extractToken ⟨some h, ck⟩ = ck) ∧
    extractToken ⟨none, ck⟩ = ck ∧
    extractToken ⟨none, none⟩ = none := by
  refine ⟨?_, ?_, ?_, ?_, rfl⟩
  · intro hsw hne
    have hbeq : (strSlice h 7 == "") = false := by simpa using hne
    simp [extractToken, hsw, jsOr, jsTruthy, hbeq]
  · intro hsw
    simp [extractToken, hsw, jsOr, jsTruthy]
  · intro hsw hemp
    simp [extractToken, hsw, jsOr, jsTruthy, hemp]
  · cases ck <;> rfl

/-- Witness for the amended C4: a non-empty bearer remainder wins over a
present cookie; a header without the prefix falls back to the cookie. -/
theorem C4_amended_extractor_precedence_witness :
    extractToken ⟨some "Bearer abc", some "cookie-token"⟩ = some "abc" ∧
    extractToken ⟨some "Basic abc", some "cookie-token"⟩ = some "cookie-token" ∧
    extractToken ⟨some "Bearer ", some "cookie-token"⟩ = some "cookie-token" := by
  refine ⟨?_, ?_, ?_⟩
  · have h := (C4_amended_extractor_precedence "Bearer abc"
      (some "cookie-token")).1 (by decide) (by decide)
    simpa using h
  · exact (C4_amended_extractor_precedence "Basic abc"
      (some "cookie-token")).2.1 (by decide)
  · exact (C4_amended_extractor_precedence "Bearer "
      (some "cookie-token")).2.2.1 (by decide) (by decide)

/-- C5 counterexample: a request carrying a valid admin token in the
Authorization header as "Bearer token" and no admin_token cookie is
allowed by the API guard but redirected by the page guard — the two
guards do not compose the same Session Extractor. -/
theorem C5_counterexample :
    verifyToken ⟨some "s1", 2⟩ (encodeToken ⟨⟨"root", "admin", 0, 2⟩, "s1"⟩) 1 =
      .ok ⟨"root", "admin", 0, 2⟩ ∧
    checkJWT ⟨some "s1", 2⟩ 1
      ⟨some ("Bearer " ++ encodeToken ⟨⟨"root", "admin", 0, 2⟩, "s1"⟩), none⟩ =
      .allow ⟨"root", "admin", 0, 2⟩ ∧
    checkJWTForPage ⟨some "s1", 2⟩ 1
      ⟨some ("Bearer " ++ encodeToken ⟨⟨"root", "admin", 0, 2⟩, "s1"⟩), none⟩ =
      .redirect "/admin-login.html" := by
  exact ⟨by rfl, by decide, by decide⟩

/-- C5 amended: the two guards share the Verifier but not the Extractor —
`checkJWTForPage` reads only the admin_token cookie, ignoring the
Authorization header entirely: with no cookie it redirects whatever the
header holds, its outcome never depends on the header, and a valid admin
token presented in the cookie is allowed. -/
theorem C5_amended_guardPage_cookie_only (env : Env) (now : Nat)
    (a : Option String) (t : String) :
    checkJWTForPage env now ⟨a, none⟩ = .redirect "/admin-login.html" ∧
    checkJWTForPage env now ⟨a, some t⟩ = checkJWTForPage env now ⟨none, some t⟩ ∧
    (∀ c, ¬ t = "" → verifyToken env t now = .ok c → c.role = "admin" →
      checkJWTForPage env now ⟨a, some t⟩ = .allow c) := by
  refine ⟨rfl, rfl, ?_⟩
  · intro c hne hv hr
    simp [checkJWTForPage, hne, hv, hr]

/-- Witness for the amended C5: with the valid admin token in the cookie
the page guard allows; with no cookie it redirects even when the same
token is in the Authorization header. -/
theorem C5_amended_guardPage_cookie_only_witness :
    checkJWTForPage ⟨some "s1", 2⟩ 1
      ⟨some ("Bearer " ++ encodeToken ⟨⟨"root", "admin", 0, 2⟩, "s1"⟩), none⟩ =
      .redirect "/admin-login.html" ∧
    checkJWTForPage ⟨some "s1", 2⟩ 1
      ⟨none, some (encodeToken ⟨⟨"root", "admin", 0, 2⟩, "s1"⟩)⟩ =
      .allow ⟨"root", "admin", 0, 2⟩ := by
  constructor
  · exact (C5_amended_guardPage_cookie_only ⟨some "s1", 2⟩ 1
      (some ("Bearer " ++ encodeToken ⟨⟨"root", "admin", 0, 2⟩, "s1"⟩))
      "unused").1
  · exact (C5_amended_guardPage_cookie_only ⟨some "s1", 2⟩ 1 none
      (encodeToken ⟨⟨"root", "admin", 0, 2⟩, "s1"⟩)).2.2
      ⟨"root", "admin", 0, 2⟩ (by decide) (by rfl) rfl

/-- C6: round trip of signing and verification — for every payload signed
by `signAdminToken` with secret S, verifying the resulting token with the
same environment at a time strictly before the expiry succeeds and
returns exactly the signed claims. -/
theorem C6_sign_verify_roundtrip (env : Env) (secret u r : String)
    (issueTime checkTime : Nat) (tok : String)
    (hs : env.jwtSecret = some secret)
    (hsig : signAdminToken env issueTime u r = .ok tok)
    (hnow : checkTime < issueTime + env.jwtExpiresIn) :
    verifyToken env tok checkTime =
      .ok ⟨u, r, issueTime, issueTime + env.jwtExpiresIn⟩ := by
  by_cases hse : secret = ""
  · rw [show signAdminToken env issueTime u r = .error "JWT_SECRET is missing in .env"
      from by simp [signAdminToken, hs, hse]] at hsig
    cases hsig
  · have htok : tok =
        encodeToken ⟨⟨u, r, issueTime, issueTime + env.jwtExpiresIn⟩, secret⟩ := by
      rw [show signAdminToken env issueTime u r =
          .ok (encodeToken ⟨⟨u, r, issueTime, issueTime + env.jwtExpiresIn⟩, secret⟩)
        from by simp [signAdminToken, hs, hse]] at hsig
      cases hsig
      rfl
    have hjv : jwtVerify
        (encodeToken ⟨⟨u, r, issueTime, issueTime + env.jwtExpiresIn⟩, secret⟩)
        secret checkTime =
        some ⟨u, r, issueTime, issueTime + env.jwtExpiresIn⟩ := by
      simp [jwtVerify, decodeToken_encodeToken, hnow]
    rw [verifyToken, hs, htok]
    simp [hse, hjv]

/-- Witness for C6: the token signed at time 0 with secret "s1" and
lifetime 2 verifies at time 1 and returns the signed claims. -/
theorem C6_sign_verify_roundtrip_witness :
    verifyToken ⟨some "s1", 2⟩
      (encodeToken ⟨⟨"root", "admin", 0, 2⟩, "s1"⟩) 1 =
      .ok ⟨"root", "admin", 0, 2⟩ :=
  C6_sign_verify_roundtrip ⟨some "s1", 2⟩ "s1" "root" "admin" 0 1
    (encodeToken ⟨⟨"root", "admin", 0, 2⟩, "s1"⟩) rfl rfl (by decide)

/-- C7: with a configured secret — per the spec's input constraint a
non-empty one, since the source's `if (!secret) throw` rejects a falsy
secret — `verifyToken` succeeds and returns the decoded claims if and
only if the token decodes and its signature matches the secret and the
check time is strictly before the expiry; a token signed with a
different secret never verifies, whatever its claims; a token whose
expiry is not in the future never verifies, even with a valid
signature. -/
theorem C7_verify_characterization (secret : String) (ei : Nat) (tok : String)
    (now : Nat) (hsec : ¬ secret = "") :
    ((∃ c, verifyToken ⟨some secret, ei⟩ tok now = .ok c) ↔
      (∃ t, decodeToken tok = some t ∧ t.sig = secret ∧
        now < t.claims.expiresAt)) ∧
    (∀ t, decodeToken tok = some t → t.sig = secret →
      now < t.claims.expiresAt →
        verifyToken ⟨some secret, ei⟩ tok now = .ok t.claims) ∧
    (∀ cl : Claims, ∀ s2 : String, ¬ s2 = secret → ∀ c,
      ¬ verifyToken ⟨some secret, ei⟩ (encodeToken ⟨cl, s2⟩) now = .ok c) ∧
    (∀ cl : Claims, cl.expiresAt ≤ now → ∀ c,
      ¬ verifyToken ⟨some secret, ei⟩ (encodeToken ⟨cl, secret⟩) now = .ok c) := by
  refine ⟨⟨?_, ?_⟩, ?_, ?_, ?_⟩
  · rintro ⟨c, hc⟩
    cases hd : decodeToken tok with
    | none =>
      rw [show verifyToken ⟨some secret, ei⟩ tok now = .error "invalid token"
        from by simp [verifyToken, jwtVerify, hd, hsec]] at hc
      cases hc
    | some t =>
      by_cases hcond : t.sig = secret ∧ now < t.claims.expiresAt
      · exact ⟨t, rfl, hcond.1, hcond.2⟩
      · rw [show verifyToken ⟨some secret, ei⟩ tok now = .error "invalid token"
          from by simp [verifyToken, jwtVerify, hd, hcond, hsec]] at hc
        cases hc
  · rintro ⟨t, hd, hsig, hexp⟩
    exact ⟨t.claims, by simp [verifyToken, jwtVerify, hd, hsig, hexp, hsec]⟩
  · intro t hd hsig hexp
    simp [verifyToken, jwtVerify, hd, hsig, hexp, hsec]
  · intro cl s2 hne c hok
    simp [verifyToken, jwtVerify, decodeToken_encodeToken, hne, hsec] at hok
  · intro cl hle c hok
    have h2 : ¬ now < cl.expiresAt := by omega
    simp [verifyToken, jwtVerify, decodeToken_encodeToken, h2, hsec] at hok

/-- Witness for C7: a token signed with "s1" verifies under "s1" before
expiry, fails under "s2", and fails after expiry. -/
theorem C7_verify_characterization_witness :
    verifyToken ⟨some "s1", 2⟩
      (encodeToken ⟨⟨"root", "admin", 0, 2⟩, "s1"⟩) 1 =
      .ok ⟨"root", "admin", 0, 2⟩ ∧
    ¬ verifyToken ⟨some "s1", 2⟩
      (encodeToken ⟨⟨"root", "admin", 0, 2⟩, "s2"⟩) 1 =
      .ok ⟨"root", "admin", 0, 2⟩ ∧
    ¬ verifyToken ⟨some "s1", 2⟩
      (encodeToken ⟨⟨"root", "admin", 0, 2⟩, "s1"⟩) 3 =
      .ok ⟨"root", "admin", 0, 2⟩ := by
  refine ⟨?_, ?_, ?_⟩
  · exact (C7_verify_characterization "s1" 2
      (encodeToken ⟨⟨"root", "admin", 0, 2⟩, "s1"⟩) 1 (by decide)).2.1
      ⟨⟨"root", "admin", 0, 2⟩, "s1"⟩
      (decodeToken_encodeToken ⟨⟨"root", "admin", 0, 2⟩, "s1"⟩) rfl (by decide)
  · exact (C7_verify_characterization "s1" 2
      (encodeToken ⟨⟨"root", "admin", 0, 2⟩, "s2"⟩) 1 (by decide)).2.2.1
      ⟨"root", "admin", 0, 2⟩ "s2" (by decide) ⟨"root", "admin", 0, 2⟩
  · exact (C7_verify_characterization "s1" 2
      (encodeToken ⟨⟨"root", "admin", 0, 2⟩, "s1"⟩) 3 (by decide)).2.2.2
      ⟨"root", "admin", 0, 2⟩ (by decide) ⟨"root", "admin", 0, 2⟩


theorem escapeHtml_data (s : String) : (escapeHtml s).data = escStage5 s.data := rfl

/-- C10: for every input string, the output of `escapeHtml` contains no
raw angle bracket, double quote (code 34) or single quote (code 39), and
every ampersand in the output begins one of the five replacement
entities; the HTML email body of the admin message route wraps exactly
this escaped text (with newlines turned into br tags) in a paragraph
element. -/
theorem C10_escapeHtml_escapes (s : String) :
    ¬ '<' ∈ (escapeHtml s).data ∧
    ¬ '>' ∈ (escapeHtml s).data ∧
    ¬ Char.ofNat 34 ∈ (escapeHtml s).data ∧
    ¬ Char.ofNat 39 ∈ (escapeHtml s).data ∧
    ampersandsEscaped (escapeHtml s).data = true ∧
    adminMessageHtml s =
      "<p>" ++ replaceAllChar (escapeHtml s) (Char.ofNat 10) "<br/>" ++ "</p>" := by
  rw [escapeHtml_data]
  refine ⟨?_, ?_, ?_, ?_, ?_, rfl⟩
  · have h2 : ¬ '<' ∈ escStage2 s.data := not_mem_escL (by decide) (Or.inl rfl)
    have h3 : ¬ '<' ∈ escStage3 s.data := not_mem_escL (by decide) (Or.inr h2)
    have h4 : ¬ '<' ∈ escStage4 s.data := not_mem_escL (by decide) (Or.inr h3)
    exact not_mem_escL (by decide) (Or.inr h4)
  · have h3 : ¬ '>' ∈ escStage3 s.data := not_mem_escL (by decide) (Or.inl rfl)
    have h4 : ¬ '>' ∈ escStage4 s.data := not_mem_escL (by decide) (Or.inr h3)
    exact not_mem_escL (by decide) (Or.inr h4)
  · have h4 : ¬ Char.ofNat 34 ∈ escStage4 s.data :=
      not_mem_escL (by decide) (Or.inl rfl)
    exact not_mem_escL (by decide) (Or.inr h4)
  · exact not_mem_escL (by decide) (Or.inl rfl)
  · have a1 : ampersandsEscaped (escStage1 s.data) = true :=
      ampersandsEscaped_escL_amp s.data
    have a2 : ampersandsEscaped (escStage2 s.data) = true :=
      ampersandsEscaped_escL_preserve '<' ['l', 't', ';'] (by decide) (by decide)
        (escStage1 s.data) a1
    have a3 : ampersandsEscaped (escStage3 s.data) = true :=
      ampersandsEscaped_escL_preserve '>' ['g', 't', ';'] (by decide) (by decide)
        (escStage2 s.data) a2
    have a4 : ampersandsEscaped (escStage4 s.data) = true :=
      ampersandsEscaped_escL_preserve (Char.ofNat 34) ['q', 'u', 'o', 't', ';']
        (by decide) (by decide) (escStage3 s.data) a3
    exact ampersandsEscaped_escL_preserve (Char.ofNat 39) ['#', '0', '3', '9', ';']
      (by decide) (by decide) (escStage4 s.data) a4

/-- Witness for C10 at a concrete input containing every special
character. -/
theorem C10_escapeHtml_escapes_witness :
    ¬ '<' ∈ (escapeHtml "a<b>&c\"'").data ∧
    ampersandsEscaped (escapeHtml "a<b>&c\"'").data = true := by
  constructor
  · exact (C10_escapeHtml_escapes "a<b>&c\"'").1
  · exact (C10_escapeHtml_escapes "a<b>&c\"'").2.2.2.2.1
